import Mathlib

/-!
Verification of the wifi-channel-assignment repository.

The Python sources are embedded shallowly:

* pure float arithmetic is modelled over `ℝ` (channel-plan arithmetic, which is
  exact rational arithmetic in the source, over `ℚ`);
* fallible operations (list indexing, method calls whose argument count does
  not match the callee's signature, division by a zero denominator) return
  `Except PyError`;
* the mutation of `Transmitter.channel` performed by the constraint closures in
  `sir_constraint.py` is modelled by explicit state passing over `TxDict`;
* the third-party CSP solver (`constraint.MinConflictsSolver`) is not part of
  the repository; its bounded min-conflicts search is modelled from the spec
  (section 4.4), with the per-step reassignment heuristic abstracted as a
  parameter, since no claim depends on which value the heuristic proposes.
-/

namespace WifiCA

/-- Runtime errors of the Python code that the embedding can surface:
`typeError` for a call whose positional-argument count does not match the
callee's parameter count, `zeroDivisionError` for division by zero,
`indexError` for an out-of-range list subscript, and `valueError` for the
CSP library rejecting an empty variable domain. -/
inductive PyError where
  | typeError
  | zeroDivisionError
  | indexError
  | valueError
  deriving DecidableEq, Repr

/-- Python list subscripting: index `i` is valid when `-len ≤ i < len`, a
negative index counting from the end. -/
def pyIndex (n : ℕ) (i : ℤ) : Option (Fin n) :=
  let j : ℤ := if i < 0 then i + n else i
  if h : 0 ≤ j ∧ j.toNat < n then some ⟨j.toNat, h.2⟩ else none

/-- Evaluate a Python list subscript `l[i]`, raising `IndexError` when the
index is out of range. -/
def pyGet {α : Type} (l : List α) (i : ℤ) : Except PyError α :=
  match pyIndex l.length i with
  | some j => Except.ok (l.get j)
  | none => Except.error PyError.indexError

/-- Embedding of `Channels.__init__` (transmitter.py): base frequency, channel
count, channel width and spacing between channel bases, all fixed at
construction. -/
structure Channels where
  base_freq : ℚ
  num_channels : ℕ
  channel_width : ℚ
  base_freq_distance : ℚ

namespace Channels

/-- The `self.channels` list built by `Channels.__init__`: for `i` in
`1..num_channels` it appends `base_freq + base_freq_distance * (i - 1)`. -/
def channels (c : Channels) : List ℚ :=
  (List.range c.num_channels).map (fun (k : ℕ) => c.base_freq + c.base_freq_distance * (k : ℚ))

/-- Embedding of `Channels.get_channel_base`: returns `self.channels[index - 1]`. -/
def get_channel_base (c : Channels) (index : ℤ) : Except PyError ℚ :=
  pyGet c.channels (index - 1)

/-- Embedding of `Channels.get_channel_center`: `self.channels[index - 1] + channel_width / 2`. -/
def get_channel_center (c : Channels) (index : ℤ) : Except PyError ℚ := do
  let b ← pyGet c.channels (index - 1)
  pure (b + c.channel_width / 2)

/-- Embedding of `Channels.get_channel_overlap` (transmitter.py lines 31-43): computes
`min(base₁, base₂) + channel_width - max(base₁, base₂)`, then returns `1` when
that value is exactly `0`, returns `0` when it is negative, and returns the
value itself otherwise. -/
def get_channel_overlap (c : Channels) (channel_1 channel_2 : ℤ) : Except PyError ℚ := do
  let channel_1_base ← c.get_channel_base channel_1
  let channel_2_base ← c.get_channel_base channel_2
  let first_channel := min channel_1_base channel_2_base
  let second_channel := max channel_1_base channel_2_base
  let overlap := first_channel + c.channel_width - second_channel
  if overlap = 0 then
    pure 1
  else if overlap < 0 then
    pure 0
  else
    pure overlap

/-- The base frequency of channel `i` as the spec states it:
`base_freq + spacing * (i - 1)`. -/
def nth_base (c : Channels) (index : ℤ) : ℚ :=
  c.base_freq + c.base_freq_distance * (index - 1)

end Channels

/-- Embedding of `Position` (path_loss.py): a 2-D point with real coordinates. -/
structure Position where
  x : ℝ
  y : ℝ

namespace Position

/-- Embedding of `Position.mag`: `sqrt(x² + y²)`. -/
noncomputable def mag (p : Position) : ℝ :=
  Real.sqrt (p.x ^ 2 + p.y ^ 2)

/-- Embedding of `Position.distance`: Euclidean distance `sqrt((x₁-x₂)² + (y₁-y₂)²)`. -/
noncomputable def distance (p q : Position) : ℝ :=
  Real.sqrt ((p.x - q.x) ^ 2 + (p.y - q.y) ^ 2)

end Position

/-- Embedding of `FreeSpacePathLossModel.__init__` (path_loss.py line 141):
only the path-loss exponent is stored. -/
structure FreeSpacePathLossModel where
  pl_exp : ℝ

namespace FreeSpacePathLossModel

/-- Embedding of `FreeSpacePathLossModel.received_power_at_position` (path_loss.py lines
144-160): `distance = |rx_pos - tx_pos|`, `wavelength = 3·10⁸ / (frequency·10⁶)`,
`rx_power_linear = 10^(tx_power/10) · (wavelength / (4π·distance))^pl_exp`,
result `10·log10(rx_power_linear)`.  The method's signature has exactly the
four data parameters below after `self`; it accepts no extra-loss argument. -/
noncomputable def received_power_at_position (m : FreeSpacePathLossModel)
    (tx_power : ℝ) (tx_pos rx_pos : Position) (frequency : ℝ) : ℝ :=
  let path : Position := ⟨rx_pos.x - tx_pos.x, rx_pos.y - tx_pos.y⟩
  let distance := path.mag
  let wavelength := (3 * 10 ^ 8) / (frequency * 10 ^ 6)
  let rx_power_linear :=
    (10 : ℝ) ^ (tx_power / 10) * (wavelength / (4 * Real.pi * distance)) ^ m.pl_exp
  10 * Real.logb 10 rx_power_linear

/-- Embedding of `FreeSpacePathLossModel.position_from_received_power` (path_loss.py lines
162-174): solves the free-space formula for the distance at which the received
power equals `rx_power`, then scales the vector `rx_pos - tx_pos` to that
length.  Note the returned point is `path * scale_factor` itself: the source
never adds `tx_pos` back, so the result lies on the ray from the origin, not
on the ray from `tx_pos`. -/
noncomputable def position_from_received_power (m : FreeSpacePathLossModel)
    (tx_power rx_power : ℝ) (tx_pos rx_pos : Position) (frequency : ℝ) : Position :=
  let path : Position := ⟨rx_pos.x - tx_pos.x, rx_pos.y - tx_pos.y⟩
  let path_mag := path.mag
  let wavelength := (3 * 10 ^ 8) / (frequency * 10 ^ 6)
  let rx_power_linear := (10 : ℝ) ^ (rx_power / 10)
  let tx_power_linear := (10 : ℝ) ^ (tx_power / 10)
  let distance := wavelength / (4 * Real.pi * ((rx_power_linear / tx_power_linear) ^ (1 / m.pl_exp)))
  let scale_factor := distance / path_mag
  ⟨path.x * scale_factor, path.y * scale_factor⟩

end FreeSpacePathLossModel

/-- Embedding of `Transmitter.__init__` (transmitter.py lines 49-66).  The
`spectral_mask` attribute is the fixed literal list set by the constructor,
kept as the constant `Transmitter.spectral_mask` below. -/
structure Transmitter where
  channel : ℤ
  tx_power : ℝ
  position : Position
  channels : Channels
  path_loss : FreeSpacePathLossModel
  sir_power_ref : ℝ

namespace Transmitter

/-- The literal `self.spectral_mask = [0, 28, 35, 45, 50, 60, 60, 60, 60, 60, 60]`
assigned by `Transmitter.__init__`. -/
def spectral_mask : List ℚ :=
  [0, 28, 35, 45, 50, 60, 60, 60, 60, 60, 60]

/-- Embedding of `Transmitter.get_received_power` (transmitter.py lines 68-70).  The body
evaluates `self.channels.get_channel_center(self.channel)` (which can raise
`IndexError`) and then calls
`self.path_loss.received_power_at_position(self.tx_power, self.position,
position, center, spectral_loss)` with five positional arguments.
`FreeSpacePathLossModel.received_power_at_position` (path_loss.py line 144)
takes only four, so the call itself raises `TypeError` on every invocation;
the method never returns a power value. -/
def get_received_power (t : Transmitter) (position : Position)
    (spectral_loss : ℝ) : Except PyError ℝ := do
  let _freq ← t.channels.get_channel_center t.channel
  Except.error PyError.typeError

/-- Embedding of `Transmitter.get_signal_interference_ratio` (transmitter.py lines 72-105),
evaluated step for step in source order: channel overlap (early return `1`
when it is `0`), the protection-boundary position, the spectral-mask lookup at
`|other.channel - self.channel|`, the other transmitter's received power at
the boundary, the `-100 dBm` floor check, and the linear-scale normalization
whose maximum uses `other.tx_power - 30`. -/
noncomputable def get_signal_interference_ratio (t other_transmitter : Transmitter) :
    Except PyError ℝ := do
  let overlap ← t.channels.get_channel_overlap t.channel other_transmitter.channel
  if overlap = 0 then
    pure 1
  else do
    let freq ← t.channels.get_channel_center t.channel
    let normal_pos := t.path_loss.position_from_received_power t.tx_power t.sir_power_ref
      t.position other_transmitter.position (freq : ℝ)
    let mask_loss ← pyGet spectral_mask ((other_transmitter.channel - t.channel).natAbs : ℤ)
    let rx_power_at_norm_pos ← other_transmitter.get_received_power normal_pos (mask_loss : ℝ)
    let min_rx_power : ℝ := -100
    if rx_power_at_norm_pos ≤ min_rx_power then
      pure 1
    else
      let numerator_linear : ℝ := 10 ^ (t.sir_power_ref / 10)
      let denominator_linear : ℝ := 10 ^ (rx_power_at_norm_pos / 10)
      let max_rx_power_linear : ℝ := 10 ^ ((other_transmitter.tx_power - 30) / 10)
      let min_rx_power_linear : ℝ := 10 ^ (min_rx_power / 10)
      let normal_sir_numerator := numerator_linear / denominator_linear
        - numerator_linear / max_rx_power_linear
      let normal_sir_denominator := numerator_linear / min_rx_power_linear
        - numerator_linear / max_rx_power_linear
      pure (normal_sir_numerator / normal_sir_denominator)

end Transmitter

instance : Inhabited Transmitter :=
  ⟨⟨0, 0, ⟨0, 0⟩, ⟨0, 0, 0, 0⟩, ⟨0⟩, 0⟩⟩

/-- The `tx_dict` of `sir_constraint.py`: the solver's transmitters keyed by
their (distinct) names, here the index of each transmitter in the input list.
Python mutation of `tx.channel` is modelled by explicit state passing. -/
def TxDict : Type := ℕ → Transmitter

/-- The effect of the Python statement `tx_dict[name].channel = ch`. -/
def setChannel (d : TxDict) (name : ℕ) (ch : ℤ) : TxDict :=
  fun k => if k = name then { d k with channel := ch } else d k

/-- The inner `sir_constraint` closure of `sir_constraint_creator`
(sir_constraint.py lines 19-27): writes both proposed channels into the shared
transmitter objects, computes the SIR of `tx1` against `tx2`, and compares it
with `minimum_sir`.  The mutated dictionary is returned alongside the result;
the mutation persists even when the SIR computation raises. -/
noncomputable def sir_constraint (tx_dict : TxDict) (minimum_sir : ℝ)
    (tx1_channel tx2_channel : ℕ × ℤ) : Except PyError Bool × TxDict :=
  let d1 := setChannel tx_dict tx1_channel.1 tx1_channel.2
  let d2 := setChannel d1 tx2_channel.1 tx2_channel.2
  let tx1 := d2 tx1_channel.1
  let tx2 := d2 tx2_channel.1
  ((do
    let sir ← tx1.get_signal_interference_ratio tx2
    pure (decide (minimum_sir < sir))), d2)

/-- The loop body of the inner `sir_constraint` closure of
`cumulative_sir_constraint_creator` (sir_constraint.py lines 43-56): for each
`tx2_channel` in `args`, write both proposed channels, compute the pairwise
SIR, return `False` early (`Except.ok none`) when it is strictly below
`minimum_pair_sir`, otherwise accumulate it into `sir`.  `Except.ok (some s)`
means the loop completed with accumulator `s`. -/
noncomputable def cumulative_sir_loop (minimum_pair_sir : ℝ) (tx1_channel : ℕ × ℤ) :
    List (ℕ × ℤ) → ℝ → TxDict → Except PyError (Option ℝ) × TxDict
  | [], sir, d => (Except.ok (some sir), d)
  | tx2_channel :: rest, sir, d =>
    let d1 := setChannel d tx1_channel.1 tx1_channel.2
    let d2 := setChannel d1 tx2_channel.1 tx2_channel.2
    let tx1 := d2 tx1_channel.1
    let tx2 := d2 tx2_channel.1
    match tx1.get_signal_interference_ratio tx2 with
    | Except.error e => (Except.error e, d2)
    | Except.ok tmp_sir =>
      if tmp_sir < minimum_pair_sir then (Except.ok none, d2)
      else cumulative_sir_loop minimum_pair_sir tx1_channel rest (sir + tmp_sir) d2

/-- The inner `sir_constraint` closure of `cumulative_sir_constraint_creator`
(sir_constraint.py lines 43-57): run the loop starting from `sir = 0`, then
return `(sir / len(args)) >= minimum_avg_sir`; with `args` empty the division
is `0 / 0`, a Python `ZeroDivisionError`. -/
noncomputable def cumulative_sir_constraint (tx_dict : TxDict)
    (minimum_avg_sir minimum_pair_sir : ℝ) (tx1_channel : ℕ × ℤ)
    (args : List (ℕ × ℤ)) : Except PyError Bool × TxDict :=
  match cumulative_sir_loop minimum_pair_sir tx1_channel args 0 tx_dict with
  | (Except.error e, d') => (Except.error e, d')
  | (Except.ok none, d') => (Except.ok false, d')
  | (Except.ok (some sir), d') =>
    if args.length = 0 then (Except.error PyError.zeroDivisionError, d')
    else (Except.ok (decide (minimum_avg_sir ≤ sir / args.length)), d')

/-- A constraint as posted by `create_and_solve_constraint_problem`: either a
pairwise constraint over two variables or a cumulative constraint over one
variable and all the others. -/
inductive SirCons where
  | pairwise (i j : ℕ)
  | cumulative (i : ℕ) (others : List ℕ)

/-- A candidate assignment of a channel to every variable (variables are the
transmitter indices; the CSP domain values are the pairs `(name, channel)`,
so a constraint receives `(i, a i)` for each of its variables `i`). -/
def Assign : Type := ℕ → ℤ

/-- Evaluate one posted constraint against assignment `a`, threading the
mutable transmitter dictionary. -/
noncomputable def evalCons (d : TxDict) (min_sir min_avg_sir : ℝ) (a : Assign) :
    SirCons → Except PyError Bool × TxDict
  | SirCons.pairwise i j => sir_constraint d min_sir (i, a i) (j, a j)
  | SirCons.cumulative i others =>
    cumulative_sir_constraint d min_avg_sir min_sir (i, a i)
      (others.map (fun j => (j, a j)))

/-- Check every posted constraint under assignment `a`, stopping at the first
raised error or the first unsatisfied constraint. -/
noncomputable def checkAll (min_sir min_avg_sir : ℝ) (a : Assign) :
    List SirCons → TxDict → Except PyError Bool × TxDict
  | [], d => (Except.ok true, d)
  | c :: rest, d =>
    match evalCons d min_sir min_avg_sir a c with
    | (Except.error e, d') => (Except.error e, d')
    | (Except.ok false, d') => (Except.ok false, d')
    | (Except.ok true, d') => checkAll min_sir min_avg_sir a rest d'

/-- Modelled from the spec: the bounded min-conflicts local search of the
external CSP library (`constraint.MinConflictsSolver`, not part of this
repository; spec section 4.4).  Starting from an assignment, it stops with
success as soon as no constraint is violated and otherwise reassigns a
conflicted variable and repeats, up to the step budget; exhaustion yields "no
solution".  The heuristic choosing the reassignment is abstracted as `next`;
errors raised while evaluating constraints propagate. -/
noncomputable def searchAux (cs : List SirCons) (min_sir min_avg_sir : ℝ)
    (next : Assign → Assign) :
    ℕ → Assign → TxDict → Except PyError (Option Assign) × TxDict
  | 0, a, d =>
    match checkAll min_sir min_avg_sir a cs d with
    | (Except.error e, d') => (Except.error e, d')
    | (Except.ok true, d') => (Except.ok (some a), d')
    | (Except.ok false, d') => (Except.ok none, d')
  | (steps + 1), a, d =>
    match checkAll min_sir min_avg_sir a cs d with
    | (Except.error e, d') => (Except.error e, d')
    | (Except.ok true, d') => (Except.ok (some a), d')
    | (Except.ok false, d') => searchAux cs min_sir min_avg_sir next steps (next a) d'

/-- Embedding of `create_and_solve_constraint_problem` (sir_constraint.py lines 61-109).
Variables are the transmitter indices (the Python keys `tx.__repr__()` are
distinct per object and iterate in insertion order); each domain is
`{(name, ch) | ch ∈ 1..num_channels}`.  In cumulative mode one constraint is
posted per transmitter `i` over `[i]` followed by every other index in order;
in pairwise mode one constraint per pair `i < j`.  The search itself is
modelled from the spec (see `searchAux`), with the initial assignment taken
as each variable's first domain value (channel 1) and the reassignment
heuristic abstracted as `next`; an empty domain cannot be searched and is
modelled as the CSP library's `ValueError`.  On success the solution channels
are written back into the transmitters and the list is returned; `Except.ok
none` is the source's `None` ("no solution"). -/
noncomputable def create_and_solve_constraint_problem (transmitters : List Transmitter)
    (channels : Channels) (min_sir : ℝ) (average : Bool) (min_avg_sir : ℝ)
    (max_steps : ℕ) (next : Assign → Assign) :
    Except PyError (Option (List Transmitter)) :=
  let n := transmitters.length
  let names := List.range n
  let d0 : TxDict := fun k => transmitters.getD k default
  let cs : List SirCons :=
    if average then
      names.map (fun i => SirCons.cumulative i (names.filter (fun j => j ≠ i)))
    else
      names.flatMap (fun i => (names.filter (fun j => i < j)).map (fun j => SirCons.pairwise i j))
  if n ≠ 0 ∧ channels.num_channels = 0 then
    Except.error PyError.valueError
  else
    match searchAux cs min_sir min_avg_sir next max_steps (fun _ => 1) d0 with
    | (Except.error e, _) => Except.error e
    | (Except.ok none, _) => Except.ok none
    | (Except.ok (some a), dF) =>
      Except.ok (some (names.map (fun k => { dF k with channel := a k })))

/-- The pairwise SIR the cumulative constraint computes for `(i, ci)` against
`(j, cj)`: both proposed channels are written into the dictionary, then the
SIR of transmitter `i` against transmitter `j` is evaluated.  This is the
value the Python loop body computes after its two channel assignments. -/
noncomputable def ratioAt (d : TxDict) (i : ℕ) (ci : ℤ) (j : ℕ) (cj : ℤ) :
    Except PyError ℝ :=
  let d2 := setChannel (setChannel d i ci) j cj
  (d2 i).get_signal_interference_ratio (d2 j)

/-- Dictionary `d'` agrees with `d` on every transmitter except possibly on the mutable
`channel` field: the frame the constraint closures are allowed to touch. -/
def sameButChannels (d d' : TxDict) : Prop :=
  ∀ k, d' k = { d k with channel := (d' k).channel }

/-- The value the cumulative loop's result is determined by: the same
recursion as `cumulative_sir_loop` with every pairwise SIR expressed through
`ratioAt` over the fixed base dictionary (the loop's own mutations do not
influence any SIR it computes, which is proved below, not assumed). -/
noncomputable def cumulative_sir_loopSpec (minimum_pair_sir : ℝ) (d : TxDict)
    (tx1_channel : ℕ × ℤ) : List (ℕ × ℤ) → ℝ → Except PyError (Option ℝ)
  | [], sir => Except.ok (some sir)
  | tx2_channel :: rest, sir =>
    match ratioAt d tx1_channel.1 tx1_channel.2 tx2_channel.1 tx2_channel.2 with
    | Except.error e => Except.error e
    | Except.ok tmp_sir =>
      if tmp_sir < minimum_pair_sir then Except.ok none
      else cumulative_sir_loopSpec minimum_pair_sir d tx1_channel rest (sir + tmp_sir)

/-- The channel plan `Channels(2402, 11, 20, 5)` used by `main.py` and
`test.py`. -/
def chTest : Channels :=
  ⟨2402, 11, 20, 5⟩

/-- The path-loss model `FreeSpacePathLossModel(2.5)` used by `main.py`. -/
noncomputable def plTest : FreeSpacePathLossModel :=
  ⟨5 / 2⟩

/-- A transmitter on channel 1 at the origin with `tx_power = 10` dBm and
reference power `-40` dBm (the `main.py` parameters). -/
noncomputable def txA : Transmitter :=
  ⟨1, 10, ⟨0, 0⟩, chTest, plTest, -40⟩

/-- A transmitter on channel 1 at `(1, 1)`, otherwise like `txA`. -/
noncomputable def txB : Transmitter :=
  ⟨1, 10, ⟨1, 1⟩, chTest, plTest, -40⟩

/-- A transmitter on channel 7 at `(1, 1)`, otherwise like `txA`; channels 1
and 7 are 30 MHz apart, more than the 20 MHz width, so their bands are
disjoint. -/
noncomputable def txG : Transmitter :=
  ⟨7, 10, ⟨1, 1⟩, chTest, plTest, -40⟩

/-- A two-transmitter dictionary on overlapping channels. -/
noncomputable def dictAB : TxDict :=
  fun k => if k = 0 then txA else txB

/-- A two-transmitter dictionary whose channels (1 and 7) are disjoint. -/
noncomputable def dictAG : TxDict :=
  fun k => if k = 0 then txA else txG

/-- A path-loss exponent of 1, used to build an exact round-trip
counterexample for the position solver. -/
noncomputable def plExpOne : FreeSpacePathLossModel :=
  ⟨1⟩

/-! Basic facts about the embedding. -/

theorem pyGet_ok_or_indexError {α : Type} (l : List α) (i : ℤ) :
    (∃ x, pyGet l i = Except.ok x) ∨ pyGet l i = Except.error PyError.indexError := by
  unfold pyGet
  cases pyIndex l.length i with
  | some j => exact Or.inl ⟨l.get j, rfl⟩
  | none => exact Or.inr rfl

/-- For an index already in `[0, len)` the Python subscript is the plain list
element. -/
theorem pyGet_of_lt {α : Type} (l : List α) (i : ℕ) (h : i < l.length) :
    pyGet l (i : ℤ) = Except.ok (l.get ⟨i, h⟩) := by
  unfold pyGet pyIndex
  have h0 : ¬ ((i : ℤ) < 0) := by exact_mod_cast Int.not_lt.mpr (Int.ofNat_nonneg i)
  simp only [h0, if_false]
  have h1 : (0 : ℤ) ≤ (i : ℤ) ∧ ((i : ℤ)).toNat < l.length := by
    constructor
    · exact Int.ofNat_nonneg i
    · simpa using h
  rw [dif_pos h1]
  simp

theorem Channels.channels_length (c : Channels) : c.channels.length = c.num_channels := by
  unfold Channels.channels
  rw [List.length_map, List.length_range]

theorem Channels.channels_get (c : Channels) (k : ℕ) (h : k < c.channels.length) :
    c.channels.get ⟨k, h⟩ = c.base_freq + c.base_freq_distance * k := by
  unfold Channels.channels
  rw [List.get_map, List.get_range]

/-- For a valid 1-based index, `get_channel_base` returns the spec formula
`base_freq + spacing * (index - 1)`. -/
theorem Channels.get_channel_base_of_valid (c : Channels) (index : ℤ)
    (h1 : 1 ≤ index) (h2 : index ≤ (c.num_channels : ℤ)) :
    c.get_channel_base index = Except.ok (c.nth_base index) := by
  unfold Channels.get_channel_base
  obtain ⟨k, rfl⟩ : ∃ k : ℕ, index = (k : ℤ) + 1 := by
    refine ⟨(index - 1).toNat, ?_⟩
    omega
  have hk : k < c.num_channels := by
    have : (k : ℤ) < (c.num_channels : ℤ) := by omega
    exact_mod_cast this
  have hk' : k < c.channels.length := by
    rw [Channels.channels_length]
    exact hk
  have he : ((k : ℤ) + 1 - 1) = ((k : ℕ) : ℤ) := by ring
  rw [he, pyGet_of_lt c.channels k hk', Channels.channels_get c k hk']
  unfold Channels.nth_base
  congr 1
  push_cast
  ring

@[simp] theorem ok_bind {α β : Type} (a : α) (f : α → Except PyError β) :
    (Except.ok a >>= f) = f a := rfl

@[simp] theorem error_bind {α β : Type} (e : PyError) (f : α → Except PyError β) :
    ((Except.error e : Except PyError α) >>= f) = Except.error e := rfl

@[simp] theorem pure_eq_ok {α : Type} (a : α) :
    (pure a : Except PyError α) = Except.ok a := rfl

theorem chTest_nth_base (i : ℤ) : chTest.nth_base i = 2402 + 5 * ((i : ℚ) - 1) := by
  unfold Channels.nth_base chTest
  push_cast
  ring

/-- For valid channel indices, `get_channel_overlap` computes the band formula
`min(base_a, base_b) + width - max(base_a, base_b)` and post-processes it
exactly as the source does. -/
theorem Channels.get_channel_overlap_of_valid (c : Channels) (a b : ℤ)
    (ha1 : 1 ≤ a) (ha2 : a ≤ (c.num_channels : ℤ))
    (hb1 : 1 ≤ b) (hb2 : b ≤ (c.num_channels : ℤ)) :
    c.get_channel_overlap a b =
      (if min (c.nth_base a) (c.nth_base b) + c.channel_width
          - max (c.nth_base a) (c.nth_base b) = 0 then Except.ok 1
       else if min (c.nth_base a) (c.nth_base b) + c.channel_width
          - max (c.nth_base a) (c.nth_base b) < 0 then Except.ok 0
       else Except.ok (min (c.nth_base a) (c.nth_base b) + c.channel_width
          - max (c.nth_base a) (c.nth_base b))) := by
  unfold Channels.get_channel_overlap
  rw [Channels.get_channel_base_of_valid c a ha1 ha2,
    Channels.get_channel_base_of_valid c b hb1 hb2]
  simp only [ok_bind, pure_eq_ok]

theorem channel_set_set (t : Transmitter) (c c' : ℤ) :
    ({ { t with channel := c } with channel := c' } : Transmitter)
      = { t with channel := c' } := rfl

/-- Shared helper: when `get_channel_overlap` returns `0`, the SIR evaluation
takes the early branch and returns `1` regardless of every other field. -/
theorem ratio_one_of_overlap_zero (t o : Transmitter)
    (h : t.channels.get_channel_overlap t.channel o.channel = Except.ok 0) :
    t.get_signal_interference_ratio o = Except.ok 1 := by
  unfold Transmitter.get_signal_interference_ratio
  rw [h]
  simp

/-- Claim C1:  The claim states `get_received_power(rx_position, L)` returns
`tx_power - 10·pl_exponent·log10(4π·distance/wavelength) - L`.  In the source,
`Transmitter.get_received_power` forwards five positional arguments to
`FreeSpacePathLossModel.received_power_at_position`, whose signature takes
four, so the call raises `TypeError` instead of returning any power; at the
concrete failing input below (transmitter at the origin on channel 1 of the
`main.py` plan, receiver at `(3, 4)`, extra loss `28` dB) the embedded call
evaluates to that `TypeError`. -/
theorem get_received_power_raises_typeError :
    txA.get_received_power ⟨3, 4⟩ 28 = Except.error PyError.typeError := rfl

/-- Shared helper: whenever the channel overlap of two transmitters is a
nonzero value (and the channel-plan and mask lookups succeed), the SIR
evaluation reaches `other.get_received_power` and raises the arity
`TypeError`; no ratio value is ever produced for an overlapping pair. -/
theorem ratio_typeError_of_overlap_ne_zero (t o : Transmitter) (v : ℚ)
    (hov : t.channels.get_channel_overlap t.channel o.channel = Except.ok v)
    (hv : ¬ v = 0)
    (hc1 : ∃ x, t.channels.get_channel_center t.channel = Except.ok x)
    (hm : ∃ y, pyGet Transmitter.spectral_mask ((o.channel - t.channel).natAbs : ℤ)
      = Except.ok y)
    (hc2 : ∃ z, o.channels.get_channel_center o.channel = Except.ok z) :
    t.get_signal_interference_ratio o = Except.error PyError.typeError := by
  obtain ⟨x, hc1⟩ := hc1
  obtain ⟨y, hm⟩ := hm
  obtain ⟨z, hc2⟩ := hc2
  unfold Transmitter.get_signal_interference_ratio Transmitter.get_received_power
  rw [hov]
  simp only [ok_bind, if_neg hv, hc1, hm, hc2, error_bind]

/-- Claim C3:  The claim states that for overlapping channels the ratio is a
value in `[0, 1]`.  In the source, any overlapping pair reaches
`other.get_received_power`, whose five-positional-argument call raises
`TypeError` (see C1), so `get_signal_interference_ratio` raises instead of
returning a value; here both transmitters sit on channel 1 at `(0,0)` and
`(1,1)` with the `main.py` parameters. -/
theorem signal_interference_ratio_raises_typeError :
    txA.get_signal_interference_ratio txB = Except.error PyError.typeError := by
  refine ratio_typeError_of_overlap_ne_zero txA txB 20 ?_ (by norm_num)
    ⟨_, rfl⟩ ⟨_, rfl⟩ ⟨_, rfl⟩
  have e1 : chTest.nth_base 1 = 2402 := by
    rw [chTest_nth_base]
    norm_num
  show chTest.get_channel_overlap 1 1 = Except.ok 20
  rw [Channels.get_channel_overlap_of_valid chTest 1 1 (by norm_num)
    (by norm_num [chTest]) (by norm_num) (by norm_num [chTest])]
  rw [e1, min_self, max_self]
  norm_num [chTest]

/-- Claim C9:  For every two transmitters whose channel overlap amount is zero,
`get_signal_interference_ratio` returns exactly `1`, independent of the
transmitters' positions, transmit powers and reference powers: the overlap
test is the first step of the method and returns before any of those fields
is read. -/
theorem sir_one_on_disjoint_channels (t o : Transmitter)
    (h : t.channels.get_channel_overlap t.channel o.channel = Except.ok 0) :
    t.get_signal_interference_ratio o = Except.ok 1 :=
  ratio_one_of_overlap_zero t o h

/-- Witness for C9: channels 1 and 7 of the `main.py` plan are 30 MHz apart
with 20 MHz width, so the overlap is `0` and the ratio evaluates to `1`. -/
theorem sir_one_on_disjoint_channels_witness :
    txA.channels.get_channel_overlap txA.channel txG.channel = Except.ok 0 ∧
      txA.get_signal_interference_ratio txG = Except.ok 1 := by
  have h : txA.channels.get_channel_overlap txA.channel txG.channel = Except.ok 0 := by
    show chTest.get_channel_overlap 1 7 = Except.ok 0
    rw [Channels.get_channel_overlap_of_valid chTest 1 7 (by norm_num)
      (by norm_num [chTest]) (by norm_num) (by norm_num [chTest])]
    have e1 : chTest.nth_base 1 = 2402 := by
      rw [chTest_nth_base]
      norm_num
    have e7 : chTest.nth_base 7 = 2432 := by
      rw [chTest_nth_base]
      norm_num
    rw [e1, e7, min_eq_left (by norm_num), max_eq_right (by norm_num)]
    norm_num [chTest]
  exact ⟨h, sir_one_on_disjoint_channels txA txG h⟩

/-- Claim C10:  `get_channel_overlap` is symmetric in its two channel arguments
(it takes `min`/`max` of the two base frequencies), including in its
`IndexError` behaviour for invalid indices, so whether a pair counts as
non-interfering does not depend on the evaluation direction. -/
theorem get_channel_overlap_symm (c : Channels) (a b : ℤ) :
    c.get_channel_overlap a b = c.get_channel_overlap b a := by
  unfold Channels.get_channel_overlap
  rcases pyGet_ok_or_indexError c.channels (a - 1) with ⟨x, hx⟩ | hx <;>
    rcases pyGet_ok_or_indexError c.channels (b - 1) with ⟨y, hy⟩ | hy <;>
      simp only [Channels.get_channel_base, hx, hy, ok_bind, error_bind]
  rw [min_comm, max_comm]

/-- Claim C6, amended:  For valid channel indices, with
`f = min(base_a, base_b) + width - max(base_a, base_b)` the band formula of
the claim: `get_channel_overlap` returns `f` when the bands properly overlap
(`0 < f`) and `0` when they are strictly disjoint (`f < 0`) — and it returns
`0` exactly in that strictly disjoint case — but when the bands exactly abut
(`f = 0`) it returns `1`, not the floored value `0` the claim states. -/
theorem get_channel_overlap_characterization (c : Channels) (a b : ℤ)
    (ha1 : 1 ≤ a) (ha2 : a ≤ (c.num_channels : ℤ))
    (hb1 : 1 ≤ b) (hb2 : b ≤ (c.num_channels : ℤ)) :
    (0 < min (c.nth_base a) (c.nth_base b) + c.channel_width
        - max (c.nth_base a) (c.nth_base b) →
      c.get_channel_overlap a b = Except.ok (min (c.nth_base a) (c.nth_base b)
        + c.channel_width - max (c.nth_base a) (c.nth_base b))) ∧
    (min (c.nth_base a) (c.nth_base b) + c.channel_width
        - max (c.nth_base a) (c.nth_base b) = 0 →
      c.get_channel_overlap a b = Except.ok 1) ∧
    (min (c.nth_base a) (c.nth_base b) + c.channel_width
        - max (c.nth_base a) (c.nth_base b) < 0 →
      c.get_channel_overlap a b = Except.ok 0) ∧
    (c.get_channel_overlap a b = Except.ok 0 ↔
      min (c.nth_base a) (c.nth_base b) + c.channel_width
        - max (c.nth_base a) (c.nth_base b) < 0) := by
  rw [Channels.get_channel_overlap_of_valid c a b ha1 ha2 hb1 hb2]
  set f := min (c.nth_base a) (c.nth_base b) + c.channel_width
    - max (c.nth_base a) (c.nth_base b) with hf
  refine ⟨?_, ?_, ?_, ?_⟩
  · intro h
    rw [if_neg (by linarith), if_neg (by linarith)]
  · intro h
    rw [if_pos h]
  · intro h
    rw [if_neg (by linarith), if_pos h]
  · rcases lt_trichotomy f 0 with h | h | h
    · rw [if_neg (by linarith), if_pos h]
      simp [h]
    · rw [if_pos h]
      simp [h]
    · rw [if_neg (by linarith), if_neg (by linarith)]
      constructor
      · intro he
        have : f = 0 := by simpa using he
        linarith
      · intro hlt
        linarith

/-- Witness for C6: channels 1 and 2 of the `main.py` plan overlap by 15 MHz
and `get_channel_overlap` returns exactly that amount. -/
theorem get_channel_overlap_characterization_witness :
    chTest.get_channel_overlap 1 2 = Except.ok 15 := by
  have e1 : chTest.nth_base 1 = 2402 := by
    rw [chTest_nth_base]
    norm_num
  have e2 : chTest.nth_base 2 = 2407 := by
    rw [chTest_nth_base]
    norm_num
  have hv : min (chTest.nth_base 1) (chTest.nth_base 2) + chTest.channel_width
      - max (chTest.nth_base 1) (chTest.nth_base 2) = 15 := by
    rw [e1, e2, min_eq_left (by norm_num), max_eq_right (by norm_num)]
    norm_num [chTest]
  have h := (get_channel_overlap_characterization chTest 1 2 (by norm_num)
    (by norm_num [chTest]) (by norm_num) (by norm_num [chTest])).1 (by rw [hv]; norm_num)
  rw [h, hv]

/-- Counterexample for C6: channels 1 and 5 of the `main.py` plan have exactly
abutting bands (`2402..2422` and `2422..2442`, band formula `0`), which per
the claim should yield overlap `0` ("cannot interfere"), yet the source
returns `1`. -/
theorem get_channel_overlap_one_on_touching_bands :
    chTest.get_channel_overlap 1 5 = Except.ok 1 ∧
      min (chTest.nth_base 1) (chTest.nth_base 5) + chTest.channel_width
        - max (chTest.nth_base 1) (chTest.nth_base 5) = 0 := by
  have e1 : chTest.nth_base 1 = 2402 := by
    rw [chTest_nth_base]
    norm_num
  have e5 : chTest.nth_base 5 = 2422 := by
    rw [chTest_nth_base]
    norm_num
  have hv : min (chTest.nth_base 1) (chTest.nth_base 5) + chTest.channel_width
      - max (chTest.nth_base 1) (chTest.nth_base 5) = 0 := by
    rw [e1, e5, min_eq_left (by norm_num), max_eq_right (by norm_num)]
    norm_num [chTest]
  refine ⟨?_, hv⟩
  rw [Channels.get_channel_overlap_of_valid chTest 1 5 (by norm_num)
    (by norm_num [chTest]) (by norm_num) (by norm_num [chTest])]
  rw [if_pos hv]

/-! State-frame lemmas for the constraint closures. -/

theorem sameButChannels_refl (d : TxDict) : sameButChannels d d :=
  fun _ => rfl

theorem sameButChannels_setChannel {d d' : TxDict} (h : sameButChannels d d')
    (k : ℕ) (c : ℤ) : sameButChannels d (setChannel d' k c) := by
  intro m
  by_cases hm : m = k
  · subst hm
    have h1 : setChannel d' m c m = { d' m with channel := c } := by
      simp [setChannel]
    rw [h1, h m]
  · have h1 : setChannel d' k c m = d' m := by
      simp [setChannel, hm]
    rw [h1]
    exact h m

theorem setChannel_ne (d : TxDict) (k : ℕ) (c : ℤ) (m : ℕ) (hm : m ≠ k) :
    setChannel d k c m = d m := by
  simp [setChannel, hm]

theorem cumulative_sir_loop_sbc (mp : ℝ) (t1 : ℕ × ℤ) :
    ∀ (args : List (ℕ × ℤ)) (sir : ℝ) {d d' : TxDict}, sameButChannels d d' →
      sameButChannels d (cumulative_sir_loop mp t1 args sir d').2 := by
  intro args
  induction args with
  | nil =>
    intro sir d d' h
    exact h
  | cons tc rest ih =>
    intro sir d d' h
    have h2 : sameButChannels d (setChannel (setChannel d' t1.1 t1.2) tc.1 tc.2) :=
      sameButChannels_setChannel (sameButChannels_setChannel h t1.1 t1.2) tc.1 tc.2
    simp only [cumulative_sir_loop]
    split
    · exact h2
    · split
      · exact h2
      · exact ih _ h2

theorem cumulative_sir_loop_untouched (mp : ℝ) (t1 : ℕ × ℤ) :
    ∀ (args : List (ℕ × ℤ)) (sir : ℝ) (d : TxDict) (k : ℕ),
      k ≠ t1.1 → (∀ p ∈ args, k ≠ p.1) →
      (cumulative_sir_loop mp t1 args sir d).2 k = d k := by
  intro args
  induction args with
  | nil =>
    intro sir d k _ _
    rfl
  | cons tc rest ih =>
    intro sir d k hk1 hk2
    have hk3 : k ≠ tc.1 := hk2 tc (List.mem_cons_self tc rest)
    have hset : setChannel (setChannel d t1.1 t1.2) tc.1 tc.2 k = d k := by
      rw [setChannel_ne _ _ _ _ hk3, setChannel_ne _ _ _ _ hk1]
    simp only [cumulative_sir_loop]
    split
    · exact hset
    · split
      · exact hset
      · rw [ih _ _ k hk1 (fun p hp => hk2 p (List.mem_cons_of_mem tc hp))]
        exact hset

theorem cumulative_sir_constraint_state (d : TxDict) (ma mp : ℝ) (t1 : ℕ × ℤ)
    (args : List (ℕ × ℤ)) :
    (cumulative_sir_constraint d ma mp t1 args).2
      = (cumulative_sir_loop mp t1 args 0 d).2 := by
  unfold cumulative_sir_constraint
  rcases hl : cumulative_sir_loop mp t1 args 0 d with ⟨res, d'⟩
  cases res with
  | error e => rfl
  | ok o =>
    cases o with
    | none => rfl
    | some s =>
      by_cases h0 : args.length = 0
      · simp [h0]
      · simp [h0]

/-- Claim C4, amended:  During constraint evaluation the solver's closures
write the proposed channels straight into the caller-visible transmitters:
after a pairwise evaluation the two involved transmitters carry exactly the
proposed channels; after a cumulative evaluation every transmitter differs
from its pre-state at most in its `channel` field.  Transmitters not named by
the constraint, and every field other than `channel`, are never changed. -/
theorem constraint_eval_mutates_only_channel (d : TxDict) (m ma mp : ℝ)
    (t1 t2 : ℕ × ℤ) (args : List (ℕ × ℤ)) :
    ((sir_constraint d m t1 t2).2 t2.1 = { d t2.1 with channel := t2.2 }) ∧
    (t1.1 ≠ t2.1 → (sir_constraint d m t1 t2).2 t1.1 = { d t1.1 with channel := t1.2 }) ∧
    (∀ k, k ≠ t1.1 → k ≠ t2.1 → (sir_constraint d m t1 t2).2 k = d k) ∧
    sameButChannels d (cumulative_sir_constraint d ma mp t1 args).2 ∧
    (∀ k, k ≠ t1.1 → (∀ p ∈ args, k ≠ p.1) →
      (cumulative_sir_constraint d ma mp t1 args).2 k = d k) := by
  have hpair : (sir_constraint d m t1 t2).2
      = setChannel (setChannel d t1.1 t1.2) t2.1 t2.2 := rfl
  refine ⟨?_, ?_, ?_, ?_, ?_⟩
  · rw [hpair]
    have e2 : setChannel (setChannel d t1.1 t1.2) t2.1 t2.2 t2.1
        = { setChannel d t1.1 t1.2 t2.1 with channel := t2.2 } := by
      simp [setChannel]
    rw [e2]
    by_cases h12 : t2.1 = t1.1
    · have e1 : setChannel d t1.1 t1.2 t2.1 = { d t2.1 with channel := t1.2 } := by
        simp [setChannel, h12]
      rw [e1]
    · rw [setChannel_ne d t1.1 t1.2 t2.1 h12]
  · intro h12
    rw [hpair, setChannel_ne _ _ _ _ h12]
    simp [setChannel]
  · intro k hk1 hk2
    rw [hpair, setChannel_ne _ _ _ _ hk2, setChannel_ne _ _ _ _ hk1]
  · rw [cumulative_sir_constraint_state]
    exact cumulative_sir_loop_sbc mp t1 args 0 (sameButChannels_refl d)
  · intro k hk1 hk2
    rw [cumulative_sir_constraint_state]
    exact cumulative_sir_loop_untouched mp t1 args 0 d k hk1 hk2

/-- Witness for C4: evaluating a pairwise constraint on the concrete
two-transmitter dictionary with proposals `(0 ↦ 3, 1 ↦ 2)` sets transmitter
0's channel to 3, leaves unrelated index 7 untouched, and a cumulative
evaluation also leaves index 7 untouched. -/
theorem constraint_eval_mutates_only_channel_witness :
    (sir_constraint dictAB (1 / 2) (0, 3) (1, 2)).2 0 = { dictAB 0 with channel := 3 } ∧
    (sir_constraint dictAB (1 / 2) (0, 3) (1, 2)).2 7 = dictAB 7 ∧
    (cumulative_sir_constraint dictAB (19 / 20) (1 / 2) (0, 3) [(1, 2)]).2 7 = dictAB 7 := by
  have h := constraint_eval_mutates_only_channel dictAB (1 / 2) (19 / 20) (1 / 2)
    (0, 3) (1, 2) [(1, 2)]
  refine ⟨h.2.1 (by decide), h.2.2.1 7 (by decide) (by decide), ?_⟩
  refine h.2.2.2.2 7 (by decide) ?_
  intro p hp
  rcases List.mem_singleton.mp hp with rfl
  decide

/-- Counterexample for C4: the claim says a transmitter's `channel` field is
unchanged at every point before the solver accepts an assignment; yet a single
pairwise-constraint evaluation flips transmitter 0's caller-visible channel
from 1 to the speculative proposal 3. -/
theorem constraint_eval_mutates_caller_channel :
    (dictAB 0).channel = 1 ∧
      ((sir_constraint dictAB (1 / 2) (0, 3) (1, 2)).2 0).channel = 3 :=
  ⟨rfl, rfl⟩

/-- Claim C7, amended:  `create_and_solve_constraint_problem` performs no eager
validation and the code defines no `ConfigurationError`: even the empty
transmitter list — combined with arbitrary (including out-of-range) threshold
values and an arbitrary step budget — flows straight into problem construction
and search and returns a successful empty assignment instead of raising. -/
theorem create_and_solve_no_validation (channels : Channels) (min_sir : ℝ)
    (average : Bool) (min_avg_sir : ℝ) (max_steps : ℕ) (next : Assign → Assign) :
    create_and_solve_constraint_problem [] channels min_sir average min_avg_sir max_steps next
      = Except.ok (some []) := by
  cases average <;> cases max_steps <;>
    simp [create_and_solve_constraint_problem, searchAux, checkAll]

/-- Counterexample for C7: a single call combining four invalid inputs of the
claim — zero transmitters, `min_pair_sir = 2 ∉ [0,1]`, `min_avg_sir = -1 ∉
[0,1]` and `max_steps = 0` — returns a successful result; no
`ConfigurationError` (indeed no error at all) is raised. -/
theorem create_and_solve_invalid_inputs_no_error :
    create_and_solve_constraint_problem [] chTest 2 true (-1) 0 id
      = Except.ok (some []) := by
  simp [create_and_solve_constraint_problem, searchAux, checkAll]

/-- Claim C8:  The claim says zero- or one-transmitter problems are trivially
satisfied in both modes.  In cumulative mode with exactly one transmitter the
posted constraint averages over zero other transmitters, and its evaluation
divides by `len(args) = 0`: the embedded solver call on the singleton list
raises `ZeroDivisionError` instead of succeeding. -/
theorem single_transmitter_cumulative_zeroDivision :
    create_and_solve_constraint_problem [txA] chTest (3 / 100) true (19 / 20) 10 id
      = Except.error PyError.zeroDivisionError := by
  rfl

/-- Claim C2:  The claim says the position returned by
`position_from_received_power(P, T, A, B, f)` reproduces `T` (to within
`1e-6` dB) when fed back into `received_power_at_position(P, A, ·, f)`.  The
source returns `path * scale_factor` without adding `tx_pos` back, so the
point lies on the ray from the origin, not from `A`.  Concretely, with
exponent 1, `P = T = 0`, `A = (-9, 0)`, `B = (0, 0)` and `f = 75/π` (so the
solved distance is exactly 1 and the returned point is `(1, 0)`, at distance
10 from `A`), the round trip yields `-10` dB — off from `T = 0` by 10 dB,
far beyond the claimed `1e-6` tolerance. -/
theorem position_from_received_power_roundtrip_fails :
    plExpOne.received_power_at_position 0 ⟨-9, 0⟩
        (plExpOne.position_from_received_power 0 0 ⟨-9, 0⟩ ⟨0, 0⟩ (75 / Real.pi))
        (75 / Real.pi) = -10 ∧
      1 / 1000000 < |plExpOne.received_power_at_position 0 ⟨-9, 0⟩
        (plExpOne.position_from_received_power 0 0 ⟨-9, 0⟩ ⟨0, 0⟩ (75 / Real.pi))
        (75 / Real.pi) - 0| := by
  have hπ : Real.pi ≠ 0 := Real.pi_ne_zero
  have hexp : plExpOne.pl_exp = 1 := rfl
  have hw : (3 * 10 ^ 8 : ℝ) / (75 / Real.pi * 10 ^ 6) = 4 * Real.pi := by
    field_simp
    ring
  have hzero : ((0 : ℝ) / 10) = 0 := by norm_num
  have hR : plExpOne.position_from_received_power 0 0 ⟨-9, 0⟩ ⟨0, 0⟩ (75 / Real.pi)
      = (⟨1, 0⟩ : Position) := by
    unfold FreeSpacePathLossModel.position_from_received_power
    simp only [Position.mag, hexp, hw, hzero, Real.rpow_zero]
    have hsq : ((0 : ℝ) - -9) ^ 2 + ((0 : ℝ) - 0) ^ 2 = 9 ^ 2 := by norm_num
    rw [hsq, Real.sqrt_sq (by norm_num : (0:ℝ) ≤ 9)]
    have hratio : ((1 : ℝ) / 1) ^ ((1 : ℝ) / 1) = 1 := by
      norm_num
    rw [hratio]
    have hd : (4 * Real.pi) / (4 * Real.pi * 1) = 1 := by
      field_simp
    rw [hd]
    norm_num
  rw [hR]
  have hP : plExpOne.received_power_at_position 0 ⟨-9, 0⟩ ⟨1, 0⟩ (75 / Real.pi) = -10 := by
    unfold FreeSpacePathLossModel.received_power_at_position
    simp only [Position.mag, hexp, hw, hzero, Real.rpow_zero]
    have hsq : ((1 : ℝ) - -9) ^ 2 + ((0 : ℝ) - 0) ^ 2 = 10 ^ 2 := by norm_num
    rw [hsq, Real.sqrt_sq (by norm_num : (0:ℝ) ≤ 10)]
    have hd : (4 * Real.pi) / (4 * Real.pi * 10) = 10⁻¹ := by
      rw [eq_comm, inv_eq_iff_eq_inv, eq_comm, inv_eq_one_div]
      field_simp
    rw [hd, Real.rpow_one, one_mul, Real.logb_inv,
      Real.logb_self_eq_one (by norm_num : (1:ℝ) < 10)]
    norm_num
  rw [hP]
  norm_num

/-! Lemmas relating the state-threaded cumulative constraint to its pure
characterization, used to settle C5. -/

theorem setChannel_eq (d : TxDict) (k : ℕ) (c : ℤ) :
    setChannel d k c k = { d k with channel := c } := by
  simp [setChannel]

theorem set2_at_snd (d : TxDict) (i : ℕ) (ci : ℤ) (j : ℕ) (cj : ℤ) :
    setChannel (setChannel d i ci) j cj j = { d j with channel := cj } := by
  rw [setChannel_eq]
  by_cases hji : j = i
  · subst hji
    rw [setChannel_eq]
  · rw [setChannel_ne _ _ _ _ hji]

theorem set2_at_fst (d : TxDict) (i : ℕ) (ci : ℤ) (j : ℕ) (cj : ℤ) (hij : i ≠ j) :
    setChannel (setChannel d i ci) j cj i = { d i with channel := ci } := by
  rw [setChannel_ne _ _ _ _ hij, setChannel_eq]

theorem channel_update_eq {t t' : Transmitter}
    (h : t' = { t with channel := t'.channel }) (c : ℤ) :
    ({ t' with channel := c } : Transmitter) = { t with channel := c } := by
  rw [h]

/-- The SIR computed for a pair of proposed channels does not depend on any
channel value previously written into the dictionary: only the two proposals
and the immutable fields matter. -/
theorem ratioAt_sbc {d d' : TxDict} (h : sameButChannels d d') (i : ℕ) (ci : ℤ)
    (j : ℕ) (cj : ℤ) : ratioAt d' i ci j cj = ratioAt d i ci j cj := by
  simp only [ratioAt]
  by_cases hij : i = j
  · subst hij
    rw [set2_at_snd d', set2_at_snd d, channel_update_eq (h i)]
  · rw [set2_at_fst d' i ci j cj hij, set2_at_snd d', set2_at_fst d i ci j cj hij,
      set2_at_snd d, channel_update_eq (h i), channel_update_eq (h j)]

/-- The state-threaded cumulative loop computes exactly the pure
recursion over `ratioAt` of the base dictionary. -/
theorem cumulative_sir_loop_eq_spec (mp : ℝ) (t1 : ℕ × ℤ) :
    ∀ (args : List (ℕ × ℤ)) (sir : ℝ) {d d' : TxDict}, sameButChannels d d' →
      (cumulative_sir_loop mp t1 args sir d').1
        = cumulative_sir_loopSpec mp d t1 args sir := by
  intro args
  induction args with
  | nil =>
    intro sir d d' h
    rfl
  | cons tc rest ih =>
    intro sir d d' h
    have h2 : sameButChannels d (setChannel (setChannel d' t1.1 t1.2) tc.1 tc.2) :=
      sameButChannels_setChannel (sameButChannels_setChannel h t1.1 t1.2) tc.1 tc.2
    have hr : (setChannel (setChannel d' t1.1 t1.2) tc.1 tc.2 t1.1).get_signal_interference_ratio
        (setChannel (setChannel d' t1.1 t1.2) tc.1 tc.2 tc.1)
        = ratioAt d t1.1 t1.2 tc.1 tc.2 := by
      rw [← ratioAt_sbc h]
      rfl
    cases hval : ratioAt d t1.1 t1.2 tc.1 tc.2 with
    | error e => simp only [cumulative_sir_loop, cumulative_sir_loopSpec, hr, hval]
    | ok tmp =>
      by_cases ht : tmp < mp
      · simp only [cumulative_sir_loop, cumulative_sir_loopSpec, hr, hval, if_pos ht]
      · simp only [cumulative_sir_loop, cumulative_sir_loopSpec, hr, hval, if_neg ht]
        exact ih (sir + tmp) h2

/-- Characterization of a completed pure loop: it yields `some tot` exactly
when every pairwise SIR evaluates successfully, none is strictly below the
pairwise floor, and `tot` is the starting accumulator plus their sum. -/
theorem loopSpec_ok_some_iff (mp : ℝ) (d : TxDict) (t1 : ℕ × ℤ) :
    ∀ (args : List (ℕ × ℤ)) (sir tot : ℝ),
      cumulative_sir_loopSpec mp d t1 args sir = Except.ok (some tot) ↔
        ∃ rs : List ℝ,
          args.map (fun tc => ratioAt d t1.1 t1.2 tc.1 tc.2) = rs.map Except.ok ∧
          (∀ r ∈ rs, ¬ r < mp) ∧ tot = sir + rs.sum := by
  intro args
  induction args with
  | nil =>
    intro sir tot
    constructor
    · intro h
      refine ⟨[], by simp, by simp, ?_⟩
      have : some sir = some tot := by
        simpa [cumulative_sir_loopSpec] using h
      simp at this
      simp [this]
    · rintro ⟨rs, hmap, -, htot⟩
      have hrs : rs = [] := by
        cases rs with
        | nil => rfl
        | cons r rs' => simp at hmap
      subst hrs
      simp at htot
      simp [cumulative_sir_loopSpec, htot]
  | cons tc rest ih =>
    intro sir tot
    simp only [cumulative_sir_loopSpec]
    cases hval : ratioAt d t1.1 t1.2 tc.1 tc.2 with
    | error e =>
      constructor
      · intro h
        exact absurd h (by simp)
      · rintro ⟨rs, hmap, -, -⟩
        cases rs with
        | nil => simp at hmap
        | cons r rs' =>
          simp only [List.map_cons, List.cons.injEq] at hmap
          exact absurd (hval ▸ hmap.1) (by simp)
    | ok tmp =>
      by_cases ht : tmp < mp
      · simp only [if_pos ht]
        constructor
        · intro h
          exact absurd h (by simp)
        · rintro ⟨rs, hmap, hge, -⟩
          cases rs with
          | nil => simp at hmap
          | cons r rs' =>
            simp only [List.map_cons, List.cons.injEq] at hmap
            have hr : r = tmp := by
              have := hval ▸ hmap.1
              simpa using this.symm
            exact absurd ht (by
              have := hge r (List.mem_cons_self r rs')
              rw [hr] at this
              exact this)
      · simp only [if_neg ht]
        rw [ih (sir + tmp) tot]
        constructor
        · rintro ⟨rs', hmap, hge, htot⟩
          refine ⟨tmp :: rs', ?_, ?_, ?_⟩
          · simp [hval, hmap]
          · intro r hr
            rcases List.mem_cons.mp hr with rfl | hr'
            · exact ht
            · exact hge r hr'
          · simp [htot]
            ring
        · rintro ⟨rs, hmap, hge, htot⟩
          cases rs with
          | nil => simp at hmap
          | cons r rs' =>
            simp only [List.map_cons, List.cons.injEq] at hmap
            have hr : tmp = r := by
              have := hval ▸ hmap.1
              simpa using this
            refine ⟨rs', hmap.2, fun s hs => hge s (List.mem_cons_of_mem r hs), ?_⟩
            rw [hr]
            simp at htot
            rw [htot]
            ring

/-- The cumulative constraint's truth value does not depend on channel values
previously written into the dictionary. -/
theorem cumulative_sir_constraint_fst_sbc {d d' : TxDict} (h : sameButChannels d d')
    (ma mp : ℝ) (t1 : ℕ × ℤ) (args : List (ℕ × ℤ)) :
    (cumulative_sir_constraint d' ma mp t1 args).1
      = (cumulative_sir_constraint d ma mp t1 args).1 := by
  unfold cumulative_sir_constraint
  have h1 : (cumulative_sir_loop mp t1 args 0 d').1
      = cumulative_sir_loopSpec mp d t1 args 0 :=
    cumulative_sir_loop_eq_spec mp t1 args 0 h
  have h2 : (cumulative_sir_loop mp t1 args 0 d).1
      = cumulative_sir_loopSpec mp d t1 args 0 :=
    cumulative_sir_loop_eq_spec mp t1 args 0 (sameButChannels_refl d)
  rcases hl' : cumulative_sir_loop mp t1 args 0 d' with ⟨res', e'⟩
  rcases hl : cumulative_sir_loop mp t1 args 0 d with ⟨res, e⟩
  have hre : res' = res := by
    have a1 : res' = cumulative_sir_loopSpec mp d t1 args 0 := by rw [← h1, hl']
    have a2 : res = cumulative_sir_loopSpec mp d t1 args 0 := by rw [← h2, hl]
    rw [a1, a2]
  subst hre
  cases res' with
  | error e => rfl
  | ok o =>
    cases o with
    | none => rfl
    | some s =>
      by_cases h0 : args.length = 0
      · simp [h0]
      · simp [h0]

/-- With an empty `args` list the cumulative constraint raises
`ZeroDivisionError` (mean over zero transmitters). -/
theorem cumulative_sir_constraint_nil (d : TxDict) (ma mp : ℝ) (t1 : ℕ × ℤ) :
    (cumulative_sir_constraint d ma mp t1 []).1
      = Except.error PyError.zeroDivisionError := rfl

/-- Characterization of the cumulative constraint: it evaluates to `True`
exactly when every pairwise SIR succeeds with a value `≥ minimum_pair_sir`
(note: not strictly greater) and their mean is `≥ minimum_avg_sir`. -/
theorem cumulative_sir_constraint_ok_true_iff (d : TxDict) (ma mp : ℝ)
    (t1 : ℕ × ℤ) (args : List (ℕ × ℤ)) (hargs : args ≠ []) :
    (cumulative_sir_constraint d ma mp t1 args).1 = Except.ok true ↔
      ∃ rs : List ℝ,
        args.map (fun tc => ratioAt d t1.1 t1.2 tc.1 tc.2) = rs.map Except.ok ∧
        (∀ r ∈ rs, mp ≤ r) ∧ ma ≤ rs.sum / rs.length := by
  unfold cumulative_sir_constraint
  have h2 : (cumulative_sir_loop mp t1 args 0 d).1
      = cumulative_sir_loopSpec mp d t1 args 0 :=
    cumulative_sir_loop_eq_spec mp t1 args 0 (sameButChannels_refl d)
  rcases hl : cumulative_sir_loop mp t1 args 0 d with ⟨res, e⟩
  have hres : res = cumulative_sir_loopSpec mp d t1 args 0 := by rw [← h2, hl]
  have hlen0 : ¬ args.length = 0 := by
    simpa using List.length_pos.mpr hargs |>.ne'
  cases res with
  | error er =>
    simp only []
    constructor
    · intro hx
      exact absurd hx (by simp)
    · rintro ⟨rs, hmap, hge, havg⟩
      exfalso
      have hok : cumulative_sir_loopSpec mp d t1 args 0 = Except.ok (some (0 + rs.sum)) := by
        rw [loopSpec_ok_some_iff]
        exact ⟨rs, hmap, fun r hr => not_lt.mpr (hge r hr), rfl⟩
      rw [← hres] at hok
      simp at hok
  | ok o =>
    cases o with
    | none =>
      simp only []
      constructor
      · intro hx
        exact absurd hx (by simp)
      · rintro ⟨rs, hmap, hge, havg⟩
        exfalso
        have hok : cumulative_sir_loopSpec mp d t1 args 0 = Except.ok (some (0 + rs.sum)) := by
          rw [loopSpec_ok_some_iff]
          exact ⟨rs, hmap, fun r hr => not_lt.mpr (hge r hr), rfl⟩
        rw [← hres] at hok
        simp at hok
    | some s =>
      simp only [if_neg hlen0]
      have hspec : cumulative_sir_loopSpec mp d t1 args 0 = Except.ok (some s) := hres.symm
      rw [loopSpec_ok_some_iff] at hspec
      obtain ⟨rs, hmap, hge, hsum⟩ := hspec
      have hlen : rs.length = args.length := by
        have := congrArg List.length hmap
        simpa using this.symm
      constructor
      · intro hx
        have hdec : ma ≤ s / args.length := by
          have := (Except.ok.inj hx)
          exact of_decide_eq_true this
        refine ⟨rs, hmap, fun r hr => not_lt.mp (hge r hr), ?_⟩
        rw [← hlen] at hdec
        rw [hsum, zero_add] at hdec
        exact hdec
      · rintro ⟨rs', hmap', hge', havg'⟩
        have hrs : rs' = rs := by
          have hinj : rs'.map (Except.ok : ℝ → Except PyError ℝ) = rs.map Except.ok := by
            rw [← hmap, ← hmap']
          exact List.map_injective_iff.mpr (fun a b hab => Except.ok.inj hab) hinj
        subst hrs
        have : decide (ma ≤ s / (args.length : ℝ)) = true := by
          rw [decide_eq_true_eq, hsum, zero_add, ← hlen]
          exact havg'
        rw [this]

/-- The pairwise constraint's truth value is likewise independent of
previously written channel values. -/
theorem sir_constraint_fst_sbc {d d' : TxDict} (h : sameButChannels d d')
    (ms : ℝ) (t1 t2 : ℕ × ℤ) :
    (sir_constraint d' ms t1 t2).1 = (sir_constraint d ms t1 t2).1 := by
  have e1 : (sir_constraint d' ms t1 t2).1
      = ratioAt d' t1.1 t1.2 t2.1 t2.2 >>= fun s => pure (decide (ms < s)) := rfl
  have e2 : (sir_constraint d ms t1 t2).1
      = ratioAt d t1.1 t1.2 t2.1 t2.2 >>= fun s => pure (decide (ms < s)) := rfl
  rw [e1, e2, ratioAt_sbc h]

theorem evalCons_fst_sbc {d d' : TxDict} (h : sameButChannels d d')
    (ms ma : ℝ) (a : Assign) (c : SirCons) :
    (evalCons d' ms ma a c).1 = (evalCons d ms ma a c).1 := by
  cases c with
  | pairwise i j => exact sir_constraint_fst_sbc h ms (i, a i) (j, a j)
  | cumulative i others => exact cumulative_sir_constraint_fst_sbc h ma ms (i, a i) _

theorem evalCons_snd_sbc {d d' : TxDict} (h : sameButChannels d d')
    (ms ma : ℝ) (a : Assign) (c : SirCons) :
    sameButChannels d (evalCons d' ms ma a c).2 := by
  cases c with
  | pairwise i j =>
    have e1 : (evalCons d' ms ma a (SirCons.pairwise i j)).2
        = setChannel (setChannel d' i (a i)) j (a j) := rfl
    rw [e1]
    exact sameButChannels_setChannel (sameButChannels_setChannel h i (a i)) j (a j)
  | cumulative i others =>
    have e1 : (evalCons d' ms ma a (SirCons.cumulative i others)).2
        = (cumulative_sir_constraint d' ma ms (i, a i)
            (others.map (fun j => (j, a j)))).2 := rfl
    rw [e1, cumulative_sir_constraint_state]
    exact cumulative_sir_loop_sbc ms (i, a i) _ 0 h

theorem checkAll_sbc (ms ma : ℝ) (a : Assign) :
    ∀ (cs : List SirCons) {d d' : TxDict}, sameButChannels d d' →
      sameButChannels d (checkAll ms ma a cs d').2 := by
  intro cs
  induction cs with
  | nil =>
    intro d d' h
    exact h
  | cons c rest ih =>
    intro d d' h
    simp only [checkAll]
    rcases he : evalCons d' ms ma a c with ⟨res, dmid⟩
    have hmid : sameButChannels d dmid := by
      have := evalCons_snd_sbc h ms ma a c
      rw [he] at this
      exact this
    cases res with
    | error e => exact hmid
    | ok b =>
      cases b with
      | false => exact hmid
      | true => exact ih hmid

/-- If the conflict check succeeds then every posted constraint holds under
the assignment, evaluated from the original dictionary. -/
theorem checkAll_ok_true (ms ma : ℝ) (a : Assign) :
    ∀ (cs : List SirCons) {d d' dF : TxDict}, sameButChannels d d' →
      checkAll ms ma a cs d' = (Except.ok true, dF) →
      sameButChannels d dF ∧ ∀ c ∈ cs, (evalCons d ms ma a c).1 = Except.ok true := by
  intro cs
  induction cs with
  | nil =>
    intro d d' dF h heq
    have h2 : d' = dF := congrArg Prod.snd heq
    subst h2
    exact ⟨h, by simp⟩
  | cons c rest ih =>
    intro d d' dF h heq
    simp only [checkAll] at heq
    rcases he : evalCons d' ms ma a c with ⟨res, dmid⟩
    rw [he] at heq
    have hmid : sameButChannels d dmid := by
      have := evalCons_snd_sbc h ms ma a c
      rw [he] at this
      exact this
    cases res with
    | error e => exact absurd heq (by simp)
    | ok b =>
      cases b with
      | false => exact absurd heq (by simp)
      | true =>
        obtain ⟨hF, hrest⟩ := ih hmid heq
        refine ⟨hF, ?_⟩
        intro c' hc'
        rcases List.mem_cons.mp hc' with rfl | hc''
        · rw [← evalCons_fst_sbc h ms ma a c', he]
        · exact hrest c' hc''

/-- Soundness of the modelled search: a returned assignment satisfies every
posted constraint (evaluated from the original dictionary), and the final
dictionary differs from the original only in channel fields. -/
theorem searchAux_ok_some (cs : List SirCons) (ms ma : ℝ) (next : Assign → Assign) :
    ∀ (steps : ℕ) (a0 : Assign) {d d' dF : TxDict} {a : Assign},
      sameButChannels d d' →
      searchAux cs ms ma next steps a0 d' = (Except.ok (some a), dF) →
      sameButChannels d dF ∧ ∀ c ∈ cs, (evalCons d ms ma a c).1 = Except.ok true := by
  intro steps
  induction steps with
  | zero =>
    intro a0 d d' dF a h heq
    simp only [searchAux] at heq
    rcases hc : checkAll ms ma a0 cs d' with ⟨res, dmid⟩
    rw [hc] at heq
    cases res with
    | error e => exact absurd heq (by simp)
    | ok b =>
      cases b with
      | false => exact absurd heq (by simp)
      | true =>
        have ha : a0 = a ∧ dmid = dF := by
          constructor
          · have := congrArg Prod.fst heq
            simpa using this
          · have := congrArg Prod.snd heq
            simpa using this
        obtain ⟨rfl, rfl⟩ := ha
        exact checkAll_ok_true ms ma a0 cs h hc
  | succ n ih =>
    intro a0 d d' dF a h heq
    simp only [searchAux] at heq
    rcases hc : checkAll ms ma a0 cs d' with ⟨res, dmid⟩
    rw [hc] at heq
    cases res with
    | error e => exact absurd heq (by simp)
    | ok b =>
      cases b with
      | false =>
        have hmid : sameButChannels d dmid := by
          have := checkAll_sbc ms ma a0 cs h
          rw [hc] at this
          exact this
        exact ih (next a0) hmid heq
      | true =>
        have ha : a0 = a ∧ dmid = dF := by
          constructor
          · have := congrArg Prod.fst heq
            simpa using this
          · have := congrArg Prod.snd heq
            simpa using this
        obtain ⟨rfl, rfl⟩ := ha
        exact checkAll_ok_true ms ma a0 cs h hc

theorem range_map_getD {α : Type} [Inhabited α] (n : ℕ) (f : ℕ → α) (i : ℕ)
    (hi : i < n) : (((List.range n).map f).getD i default) = f i := by
  rw [List.getD_eq_getElem?_getD, List.getElem?_map, List.getElem?_range hi]
  rfl

/-- What a successful cumulative-mode solver run guarantees: the output is the
input list with solution channels written in, and every posted cumulative
constraint evaluates to `True` under the solution from the original
dictionary. -/
theorem create_cumulative_sound (txs : List Transmitter) (channels : Channels)
    (min_sir min_avg_sir : ℝ) (max_steps : ℕ) (next : Assign → Assign)
    (out : List Transmitter)
    (hok : create_and_solve_constraint_problem txs channels min_sir true min_avg_sir
      max_steps next = Except.ok (some out)) :
    ∃ a : Assign,
      out = (List.range txs.length).map
        (fun k => { txs.getD k default with channel := a k }) ∧
      ∀ i ∈ List.range txs.length,
        (evalCons (fun k => txs.getD k default) min_sir min_avg_sir a
          (SirCons.cumulative i
            ((List.range txs.length).filter (fun j => j ≠ i)))).1 = Except.ok true := by
  unfold create_and_solve_constraint_problem at hok
  by_cases hguard : txs.length ≠ 0 ∧ channels.num_channels = 0
  · rw [if_pos hguard] at hok
    exact absurd hok (by simp)
  · rw [if_neg hguard] at hok
    simp only [if_true] at hok
    rcases hs : searchAux ((List.range txs.length).map
        (fun i => SirCons.cumulative i
          ((List.range txs.length).filter (fun j => j ≠ i))))
        min_sir min_avg_sir next max_steps (fun _ => 1)
        (fun k => txs.getD k default) with ⟨res, dF⟩
    rw [hs] at hok
    cases res with
    | error e => exact absurd hok (by simp)
    | ok o =>
      cases o with
      | none => exact absurd hok (by simp)
      | some a =>
        obtain ⟨hsbc, hall⟩ := searchAux_ok_some _ min_sir min_avg_sir next max_steps
          (fun _ => 1) (sameButChannels_refl (fun k => txs.getD k default)) hs
        refine ⟨a, ?_, ?_⟩
        · have hout : out = (List.range txs.length).map
              (fun k => { dF k with channel := a k }) := by
            have := Except.ok.inj hok
            have := Option.some.inj this
            exact this.symm
          rw [hout]
          refine List.map_congr_left ?_
          intro k _
          exact channel_update_eq (hsbc k) (a k)
        · intro i hi
          exact hall _ (List.mem_map_of_mem _ hi)

theorem chTest_overlap_1_7 : chTest.get_channel_overlap 1 7 = Except.ok 0 := by
  rw [Channels.get_channel_overlap_of_valid chTest 1 7 (by norm_num)
    (by norm_num [chTest]) (by norm_num) (by norm_num [chTest])]
  have e1 : chTest.nth_base 1 = 2402 := by
    rw [chTest_nth_base]
    norm_num
  have e7 : chTest.nth_base 7 = 2432 := by
    rw [chTest_nth_base]
    norm_num
  rw [e1, e7, min_eq_left (by norm_num), max_eq_right (by norm_num)]
  norm_num [chTest]

/-- The pairwise SIR of the disjoint-channel test pair is exactly 1. -/
theorem ratioAt_dictAG_one : ratioAt dictAG 0 1 1 7 = Except.ok 1 := by
  have e1 := set2_at_fst dictAG 0 1 1 7 (by decide)
  have e2 := set2_at_snd dictAG 0 1 1 7
  simp only [ratioAt]
  rw [e1, e2]
  refine ratio_one_of_overlap_zero _ _ ?_
  show chTest.get_channel_overlap 1 7 = Except.ok 0
  exact chTest_overlap_1_7

/-- Claim C5, amended:  In cumulative mode the constraint for transmitter `i`
holds exactly when every pairwise SIR from `i` to each other transmitter
succeeds with a value `≥ min_pair_sir` — the floor is inclusive, a ratio
exactly equal to `min_pair_sir` passes, only strictly smaller ratios fail —
and the mean of those ratios is `≥ min_avg_sir`; and every solution the
(spec-modelled) solver returns satisfies both inclusive conditions for every
transmitter. -/
theorem cumulative_mode_characterization :
    (∀ (d : TxDict) (min_avg_sir min_pair_sir : ℝ) (t1 : ℕ × ℤ)
        (args : List (ℕ × ℤ)), args ≠ [] →
      ((cumulative_sir_constraint d min_avg_sir min_pair_sir t1 args).1
          = Except.ok true ↔
        ∃ rs : List ℝ,
          args.map (fun tc => ratioAt d t1.1 t1.2 tc.1 tc.2) = rs.map Except.ok ∧
          (∀ r ∈ rs, min_pair_sir ≤ r) ∧ min_avg_sir ≤ rs.sum / rs.length)) ∧
    (∀ (txs : List Transmitter) (channels : Channels) (min_sir min_avg_sir : ℝ)
        (max_steps : ℕ) (next : Assign → Assign) (out : List Transmitter),
      create_and_solve_constraint_problem txs channels min_sir true min_avg_sir
          max_steps next = Except.ok (some out) →
      ∀ i ∈ List.range txs.length,
        ∃ rs : List ℝ,
          ((List.range txs.length).filter (fun j => j ≠ i)).map
              (fun j => (out.getD i default).get_signal_interference_ratio
                (out.getD j default)) = rs.map Except.ok ∧
          (∀ r ∈ rs, min_sir ≤ r) ∧ min_avg_sir ≤ rs.sum / rs.length) := by
  constructor
  · intro d ma mp t1 args hargs
    exact cumulative_sir_constraint_ok_true_iff d ma mp t1 args hargs
  · intro txs channels ms ma steps next out hok i hi
    obtain ⟨a, hout, hall⟩ := create_cumulative_sound txs channels ms ma steps next out hok
    have hcons : (cumulative_sir_constraint (fun k => txs.getD k default) ma ms (i, a i)
        (((List.range txs.length).filter (fun j => j ≠ i)).map (fun j => (j, a j)))).1
        = Except.ok true := hall i hi
    by_cases hnil : ((List.range txs.length).filter (fun j => j ≠ i)).map
        (fun j => (j, a j)) = []
    · rw [hnil, cumulative_sir_constraint_nil] at hcons
      exact absurd hcons (by simp)
    · rw [cumulative_sir_constraint_ok_true_iff _ _ _ _ _ hnil] at hcons
      obtain ⟨rs, hmap, hge, havg⟩ := hcons
      refine ⟨rs, ?_, hge, havg⟩
      rw [← hmap, List.map_map]
      refine List.map_congr_left ?_
      intro j hj
      have hji : j ≠ i := by
        have := List.mem_filter.mp hj
        exact of_decide_eq_true this.2
      have hiLt : i < txs.length := List.mem_range.mp hi
      have hjLt : j < txs.length :=
        List.mem_range.mp (List.mem_filter.mp hj).1
      have ho_i : out.getD i default = { txs.getD i default with channel := a i } := by
        rw [hout]
        exact range_map_getD _ _ i hiLt
      have ho_j : out.getD j default = { txs.getD j default with channel := a j } := by
        rw [hout]
        exact range_map_getD _ _ j hjLt
      rw [ho_i, ho_j]
      show _ = ratioAt (fun k => txs.getD k default) i (a i) j (a j)
      have e1 := set2_at_fst (fun k => txs.getD k default) i (a i) j (a j)
        (fun hij => hji hij.symm)
      have e2 := set2_at_snd (fun k => txs.getD k default) i (a i) j (a j)
      simp only [ratioAt]
      rw [e1, e2]

/-- Witness for C5: a two-transmitter dictionary on disjoint channels has both
pairwise ratios equal to 1, so with `min_pair_sir = 1/2` and `min_avg_sir =
0.95` the cumulative constraint for transmitter 0 evaluates to `True`. -/
theorem cumulative_mode_characterization_witness :
    (cumulative_sir_constraint dictAG (19 / 20) (1 / 2) (0, 1) [(1, 7)]).1
      = Except.ok true := by
  refine (cumulative_mode_characterization.1 dictAG (19 / 20) (1 / 2) (0, 1)
    [(1, 7)] (by simp)).mpr ?_
  refine ⟨[1], ?_, ?_, ?_⟩
  · simp [ratioAt_dictAG_one]
  · intro r hrr
    rw [List.mem_singleton.mp hrr]
    norm_num
  · simp
    norm_num

/-- Counterexample for C5: the claim requires each pairwise ratio to *strictly*
exceed `min_pair_sir` ("a single ratio equal to or below min_pair_sir fails
the whole constraint").  With `min_pair_sir = 1` and a pair whose ratio is
exactly 1 the source constraint nevertheless evaluates to `True`: the code
fails only on `tmp_sir < minimum_pair_sir`. -/
theorem cumulative_constraint_passes_on_equal_ratio :
    (cumulative_sir_constraint dictAG (19 / 20) 1 (0, 1) [(1, 7)]).1
        = Except.ok true ∧
      ratioAt dictAG 0 1 1 7 = Except.ok 1 ∧ ¬ ((1 : ℝ) > 1) := by
  refine ⟨?_, ratioAt_dictAG_one, by norm_num⟩
  rw [cumulative_sir_constraint_ok_true_iff dictAG (19 / 20) 1 (0, 1) [(1, 7)]
    (by simp)]
  refine ⟨[1], ?_, ?_, ?_⟩
  · simp [ratioAt_dictAG_one]
  · intro r hrr
    rw [List.mem_singleton.mp hrr]
  · simp
    norm_num

end WifiCA
